import Mathlib

/-!
Shallow embedding of `js/phet-io/compareAPIs.js` (the API-comparison core of
the chipper build-tool repository) and proofs about it.

The JS module exports a single arrow function `(api1, api2) => problems` that
diffs two phet-io API descriptions.  Each description is a JSON document whose
top-level key `phetioElements` maps element identifiers (strings) to flat
metadata records whose attribute values are primitive (strings or booleans) or
absent (`undefined`).  JS objects enumerate their keys in insertion order, so
they are embedded as ordered association lists.
-/

namespace Chipper

/-- A primitive JavaScript metadata value as it occurs in a phet-io element
metadata record: a string or a boolean.  Absence of an attribute
(JS `undefined`) is represented by `Option.none` at use sites. -/
inductive JSVal where
  | str (s : String)
  | bool (b : Bool)
deriving DecidableEq

/-- Rendering of a present value inside a JS template literal. -/
def jsValToString : JSVal → String
  | JSVal.str s => s
  | JSVal.bool true => "true"
  | JSVal.bool false => "false"

/-- Rendering of a possibly-absent value inside a JS template literal:
`undefined` prints as the string "undefined". -/
def jsShow : Option JSVal → String
  | none => "undefined"
  | some v => jsValToString v

/-- A phet-io element's metadata record: a JS object, i.e. an ordered
association list from attribute names to primitive values. -/
abbrev ElementMetadata := List (String × JSVal)

/-- The `phetioElements` mapping: element identifier to metadata record,
in insertion order. -/
abbrev Elements := List (String × ElementMetadata)

/-- An API description document.  `compareAPIs` reads only `phetioElements`;
`otherFields` stands for all other top-level content of the JSON document
(type descriptions, method descriptions, ...).  `phetioElements = none`
represents a document missing that top-level mapping. -/
structure API where
  phetioElements : Option Elements
  otherFields : List (String × JSVal)

/-- One detected incompatibility: the value object `\x7b message \x7d` pushed
onto the `problems` array. -/
structure Problem where
  message : String
deriving DecidableEq

/-- JS property read `obj[key]` on an object embedded as an association list:
the bound value, or `none` (undefined) when the key is absent. -/
def jsGet {α : Type} (l : List (String × α)) (k : String) : Option α :=
  (l.find? (fun p => p.1 == k)).map Prod.snd

/-- `Object.keys(obj)`: the keys in insertion order. -/
def jsKeys {α : Type} (l : List (String × α)) : List String :=
  l.map Prod.fst

/-- The double property read `api.phetioElements[ phetioID ][ metadataKey ]`
as performed inside `reportDifferences` (the comparator only performs it for
identifiers present in the mapping, so the `none` fallback is unreachable
there). -/
def getMetadata (elts : Elements) (phetioID metadataKey : String) : Option JSVal :=
  match jsGet elts phetioID with
  | some elem => jsGet elem metadataKey
  | none => none

/-- The template literal
`` `${phetioID}.${metadataKey} changed from ${oldValue} to ${newValue}` ``. -/
def changedMessage (phetioID metadataKey : String) (oldValue newValue : Option JSVal) : String :=
  phetioID ++ "." ++ metadataKey ++ " changed from " ++ jsShow oldValue
    ++ " to " ++ jsShow newValue

/-- The inner closure `reportDifferences( metadataKey, invalidNewValue )` of
`compareAPIs.js` (lines 26-44), returning the problems it pushes: when the old
and new values differ under strict inequality, push the changed-message
Problem, except that when `invalidNewValue` is supplied the push happens only
when the new value strictly equals `invalidNewValue`. -/
def reportDifferences (elts1 elts2 : Elements) (phetioID metadataKey : String)
    (invalidNewValue : Option JSVal) : List Problem :=
  let oldValue := getMetadata elts1 phetioID metadataKey
  let newValue := getMetadata elts2 phetioID metadataKey
  if oldValue ≠ newValue then
    match invalidNewValue with
    | none => [Problem.mk (changedMessage phetioID metadataKey oldValue newValue)]
    | some inv =>
      if newValue = some inv then
        [Problem.mk (changedMessage phetioID metadataKey oldValue newValue)]
      else
        []
  else
    []

/-- The eight sequential `reportDifferences` calls of `compareAPIs.js`
(lines 47-54), in source order, for one identifier present in both
descriptions. -/
def elementProblems (elts1 elts2 : Elements) (phetioID : String) : List Problem :=
  reportDifferences elts1 elts2 phetioID "phetioTypeName" none
    ++ reportDifferences elts1 elts2 phetioID "phetioEventType" none
    ++ reportDifferences elts1 elts2 phetioID "phetioPlayback" none
    ++ reportDifferences elts1 elts2 phetioID "phetioDynamicElement" none
    ++ reportDifferences elts1 elts2 phetioID "phetioIsArchetype" none
    ++ reportDifferences elts1 elts2 phetioID "phetioArchetypePhetioID" none
    ++ reportDifferences elts1 elts2 phetioID "phetioState" (some (JSVal.bool false))
    ++ reportDifferences elts1 elts2 phetioID "phetioReadOnly" (some (JSVal.bool true))

/-- The metadata checks in source declaration order, each paired with its
`invalidNewValue` argument (`none` for the six non-directional checks). -/
def metadataChecks : List (String × Option JSVal) :=
  [ ("phetioTypeName", none)
  , ("phetioEventType", none)
  , ("phetioPlayback", none)
  , ("phetioDynamicElement", none)
  , ("phetioIsArchetype", none)
  , ("phetioArchetypePhetioID", none)
  , ("phetioState", some (JSVal.bool false))
  , ("phetioReadOnly", some (JSVal.bool true)) ]

/-- The six attributes checked without an `invalidNewValue` argument. -/
def nonDirectionalKeys : List String :=
  [ "phetioTypeName", "phetioEventType", "phetioPlayback"
  , "phetioDynamicElement", "phetioIsArchetype", "phetioArchetypePhetioID" ]

/-- The two directional checks, each with the boolean unsafe target value. -/
def directionalChecks : List (String × Bool) :=
  [ ("phetioState", false), ("phetioReadOnly", true) ]

/-- Lines 17-22 of `compareAPIs.js`: when the two key arrays are not
deep-equal, filter the first key array down to the keys missing from the
second and, when non-empty, push one Problem listing them joined by
newline-tab. -/
def missingElementsProblems (elements1 elements2 : List String) : List Problem :=
  if elements1 = elements2 then
    []
  else
    let missingFrom2 := elements1.filter (fun e => !(elements2.contains e))
    if 0 < missingFrom2.length then
      [Problem.mk ("Second API missing elements:\n\t"
        ++ String.intercalate "\n\t" missingFrom2)]
    else
      []

/-- The exported comparator of `compareAPIs.js`.  `Object.keys` on a missing
`phetioElements` mapping throws a TypeError, embedded as `Except.error`; the
`forEach` loop pushing onto the `problems` array is embedded as a left fold
that appends each shared identifier's problems. -/
def compareAPIs (api1 api2 : API) : Except String (List Problem) :=
  match api1.phetioElements, api2.phetioElements with
  | some elts1, some elts2 =>
    let elements1 := jsKeys elts1
    let elements2 := jsKeys elts2
    let problems := missingElementsProblems elements1 elements2
    let problems := elements1.foldl
      (fun acc phetioID =>
        if elements2.contains phetioID then
          acc ++ elementProblems elts1 elts2 phetioID
        else
          acc)
      problems
    Except.ok problems
  | _, _ => Except.error "TypeError: Cannot convert undefined or null to object"

/-- Modelled from the spec: the element-set check performed "as a genuine set
comparison", i.e. the variant of lines 17-22 without the guarding deep-equal
fast path: always compute the key-set difference and push the Problem exactly
when it is non-empty. -/
def missingElementsProblemsUnguarded (elements1 elements2 : List String) : List Problem :=
  let missingFrom2 := elements1.filter (fun e => !(elements2.contains e))
  if 0 < missingFrom2.length then
    [Problem.mk ("Second API missing elements:\n\t"
      ++ String.intercalate "\n\t" missingFrom2)]
  else
    []

/-- Modelled from the spec: the comparator with the unguarded element-set
check, used to state that the deep-equal guard is a pure optimization. -/
def compareAPIsUnguarded (api1 api2 : API) : Except String (List Problem) :=
  match api1.phetioElements, api2.phetioElements with
  | some elts1, some elts2 =>
    let elements1 := jsKeys elts1
    let elements2 := jsKeys elts2
    let problems := missingElementsProblemsUnguarded elements1 elements2
    let problems := elements1.foldl
      (fun acc phetioID =>
        if elements2.contains phetioID then
          acc ++ elementProblems elts1 elts2 phetioID
        else
          acc)
      problems
    Except.ok problems
  | _, _ => Except.error "TypeError: Cannot convert undefined or null to object"

/-! Sample API descriptions used by the witness theorems. -/

/-- Sample old metadata for element `sim.x`. -/
def mdOld : ElementMetadata :=
  [ ("phetioTypeName", JSVal.str "T1"), ("phetioState", JSVal.bool true)
  , ("phetioFeatured", JSVal.bool true) ]

/-- Sample new metadata for element `sim.x`: the type name changed, the
element became non-stateful, and the excluded `phetioFeatured` flag flipped. -/
def mdNew : ElementMetadata :=
  [ ("phetioTypeName", JSVal.str "T2"), ("phetioState", JSVal.bool false)
  , ("phetioFeatured", JSVal.bool false) ]

/-- Sample old element mapping: `sim.x` and `sim.y`. -/
def eltsOld : Elements := [("sim.x", mdOld), ("sim.y", [])]

/-- Sample new element mapping: `sim.y` was removed. -/
def eltsNew : Elements := [("sim.x", mdNew)]

/-- Sample old API description. -/
def apiOld : API := API.mk (some eltsOld) []

/-- Sample new API description. -/
def apiNew : API := API.mk (some eltsNew) []

/-- Same element mapping as `apiOld` but with extra top-level content. -/
def apiOldExtra : API := API.mk (some eltsOld) [("version", JSVal.str "1.0")]

/-- Same element mapping as `apiNew` but with extra top-level content. -/
def apiNewExtra : API := API.mk (some eltsNew) [("phetioTypes", JSVal.str "...")]

/-- Two-element mapping in one insertion order. -/
def apiAB : API := API.mk (some [("a", []), ("b", [])]) []

/-- The same two-element mapping in the opposite insertion order. -/
def apiBA : API := API.mk (some [("b", []), ("a", [])]) []

/-- One element whose `phetioFeatured` flag is `true`. -/
def apiFeaturedTrue : API := API.mk (some [("sim.x", [("phetioFeatured", JSVal.bool true)])]) []

/-- One element whose `phetioFeatured` flag is `false`. -/
def apiFeaturedFalse : API := API.mk (some [("sim.x", [("phetioFeatured", JSVal.bool false)])]) []

/-! Helper lemmas shared by the claim theorems. -/

/-- The `forEach`-with-`push` loop as a left fold equals the initial problems
followed by the flat-map of each iteration's pushed problems. -/
theorem foldl_guard_append (l : List String) (g : String → Bool) (f : String → List Problem)
    (init : List Problem) :
    l.foldl (fun acc id => if g id then acc ++ f id else acc) init
      = init ++ l.flatMap (fun id => if g id then f id else []) := by
  induction l generalizing init with
  | nil => simp
  | cons x xs ih =>
    cases hgx : g x <;>
      simp [List.foldl_cons, ih, hgx, List.flatMap_cons, List.append_assoc]

/-- On present element mappings, `compareAPIs` succeeds with the missing-element
problems followed by each first-mapping identifier's element problems. -/
theorem compareAPIs_ok_decomp (api1 api2 : API) (elts1 elts2 : Elements)
    (h1 : api1.phetioElements = some elts1) (h2 : api2.phetioElements = some elts2) :
    compareAPIs api1 api2 = Except.ok
      (missingElementsProblems (jsKeys elts1) (jsKeys elts2)
        ++ (jsKeys elts1).flatMap (fun id =>
            if (jsKeys elts2).contains id then elementProblems elts1 elts2 id else [])) := by
  unfold compareAPIs
  rw [h1, h2]
  exact congrArg Except.ok (foldl_guard_append _ _ _ _)

/-- The eight sequential checks equal a flat-map over the check table. -/
theorem elementProblems_eq_flatMap (elts1 elts2 : Elements) (id : String) :
    elementProblems elts1 elts2 id
      = metadataChecks.flatMap (fun c => reportDifferences elts1 elts2 id c.1 c.2) := by
  simp [elementProblems, metadataChecks, List.flatMap_cons, List.append_assoc]

/-- A flat-map over a list containing `a` splits around `f a`. -/
theorem flatMap_mem_decomp {α β : Type} (l : List α) (f : α → List β) (a : α) (h : a ∈ l) :
    ∃ pre post, l.flatMap f = pre ++ f a ++ post := by
  obtain ⟨s, t, rfl⟩ := List.append_of_mem h
  exact ⟨s.flatMap f, t.flatMap f,
    by simp [List.flatMap_append, List.flatMap_cons, List.append_assoc]⟩

/-- Closed form of a non-directional check. -/
theorem reportDifferences_none_eq (elts1 elts2 : Elements) (id k : String) :
    reportDifferences elts1 elts2 id k none
      = (if getMetadata elts1 id k = getMetadata elts2 id k then []
         else [Problem.mk (changedMessage id k (getMetadata elts1 id k)
                (getMetadata elts2 id k))]) := by
  unfold reportDifferences
  by_cases h : getMetadata elts1 id k = getMetadata elts2 id k <;> simp [h]

/-- Closed form of a directional check: report exactly when the value changed
and the new value is the unsafe target. -/
theorem reportDifferences_some_eq (elts1 elts2 : Elements) (id k : String) (v : JSVal) :
    reportDifferences elts1 elts2 id k (some v)
      = (if getMetadata elts2 id k = some v
            ∧ getMetadata elts1 id k ≠ getMetadata elts2 id k
         then [Problem.mk (changedMessage id k (getMetadata elts1 id k)
                (getMetadata elts2 id k))]
         else []) := by
  unfold reportDifferences
  by_cases h1 : getMetadata elts1 id k = getMetadata elts2 id k <;>
    by_cases h2 : getMetadata elts2 id k = some v <;> simp [h1, h2]

/-- A check on equal old and new values pushes nothing. -/
theorem reportDifferences_eq_nil_of_eq (elts1 elts2 : Elements) (id k : String)
    (inv : Option JSVal) (h : getMetadata elts1 id k = getMetadata elts2 id k) :
    reportDifferences elts1 elts2 id k inv = [] := by
  unfold reportDifferences
  simp [h]

/-- When every checked attribute agrees, an element contributes no problems. -/
theorem elementProblems_eq_nil (elts1 elts2 : Elements) (id : String)
    (h : ∀ c ∈ metadataChecks, getMetadata elts1 id c.1 = getMetadata elts2 id c.1) :
    elementProblems elts1 elts2 id = [] := by
  rw [elementProblems_eq_flatMap, List.flatMap_eq_nil_iff]
  intro c hc
  exact reportDifferences_eq_nil_of_eq _ _ _ _ _ (h c hc)

/-- Every problem a check pushes carries the changed-value message for that
identifier and attribute. -/
theorem mem_reportDifferences_message (elts1 elts2 : Elements) (id k : String)
    (inv : Option JSVal) (p : Problem) (h : p ∈ reportDifferences elts1 elts2 id k inv) :
    p.message = changedMessage id k (getMetadata elts1 id k) (getMetadata elts2 id k) := by
  unfold reportDifferences at h
  cases inv with
  | none =>
    by_cases he : getMetadata elts1 id k = getMetadata elts2 id k <;>
      simp [he] at h <;> simp [h]
  | some v =>
    by_cases he : getMetadata elts1 id k = getMetadata elts2 id k <;>
      by_cases hn : getMetadata elts2 id k = some v <;>
        simp [he, hn] at h <;> simp [h, hn]

/-- Every problem an element contributes carries a changed-value message for
that identifier. -/
theorem mem_elementProblems_shape (elts1 elts2 : Elements) (id : String) (p : Problem)
    (h : p ∈ elementProblems elts1 elts2 id) :
    ∃ k, p.message = changedMessage id k (getMetadata elts1 id k) (getMetadata elts2 id k) := by
  rw [elementProblems_eq_flatMap] at h
  obtain ⟨c, hc, hp⟩ := List.mem_flatMap.mp h
  exact ⟨c.1, mem_reportDifferences_message _ _ _ _ _ _ hp⟩

/-- The deep-equal fast path never changes the element-set check's output. -/
theorem missingElementsProblems_eq_unguarded (e1 e2 : List String) :
    missingElementsProblems e1 e2 = missingElementsProblemsUnguarded e1 e2 := by
  unfold missingElementsProblems missingElementsProblemsUnguarded
  by_cases h : e1 = e2
  · subst h
    have hf : e1.filter (fun e => !(e1.contains e)) = [] := by
      rw [List.filter_eq_nil_iff]
      intro a ha
      simp [ha]
    simp [hf]
  · simp [h]

/-- When every first-mapping key occurs in the second mapping, the element-set
check emits nothing. -/
theorem missingElementsProblems_eq_nil (e1 e2 : List String) (h : ∀ a ∈ e1, a ∈ e2) :
    missingElementsProblems e1 e2 = [] := by
  unfold missingElementsProblems
  by_cases heq : e1 = e2
  · simp [heq]
  · have hf : e1.filter (fun e => !(e2.contains e)) = [] := by
      rw [List.filter_eq_nil_iff]
      intro a ha
      simp [h a ha]
    simp only [if_neg heq, hf]
    rfl

/-! Claim theorems. -/

/-- C4: for every well-formed API description `a` (its `phetioElements`
mapping is present), `compareAPIs a a` returns the empty sequence of
Problems (reflexivity). -/
theorem compare_self_no_problems (a : API) (elts : Elements)
    (h : a.phetioElements = some elts) :
    compareAPIs a a = Except.ok [] := by
  rw [compareAPIs_ok_decomp a a elts elts h h]
  have hm : missingElementsProblems (jsKeys elts) (jsKeys elts) = [] := by
    unfold missingElementsProblems
    simp
  have hf : (jsKeys elts).flatMap
      (fun id => if (jsKeys elts).contains id then elementProblems elts elts id else [])
      = [] := by
    rw [List.flatMap_eq_nil_iff]
    intro id _
    have hep : elementProblems elts elts id = [] :=
      elementProblems_eq_nil _ _ _ (fun c _ => rfl)
    simp [hep]
  rw [hm, hf]
  rfl

/-- C4 witness: comparing a concrete description against itself yields no
problems. -/
theorem compare_self_no_problems_witness :
    compareAPIs apiOld apiOld = Except.ok [] :=
  compare_self_no_problems apiOld eltsOld rfl

/-- C7: the returned Problems appear in check order: the missing-elements
problems first, then, in the iteration order of the first description's
element mapping, each shared identifier's metadata problems in the fixed
declaration order of `metadataChecks` (`phetioTypeName`, `phetioEventType`,
`phetioPlayback`, `phetioDynamicElement`, `phetioIsArchetype`,
`phetioArchetypePhetioID`, `phetioState`, `phetioReadOnly`). -/
theorem compare_problem_order (api1 api2 : API) (elts1 elts2 : Elements)
    (h1 : api1.phetioElements = some elts1) (h2 : api2.phetioElements = some elts2) :
    compareAPIs api1 api2 = Except.ok
      (missingElementsProblems (jsKeys elts1) (jsKeys elts2)
        ++ (jsKeys elts1).flatMap (fun id =>
            if (jsKeys elts2).contains id then
              metadataChecks.flatMap (fun c => reportDifferences elts1 elts2 id c.1 c.2)
            else [])) := by
  rw [compareAPIs_ok_decomp api1 api2 elts1 elts2 h1 h2]
  simp only [elementProblems_eq_flatMap]

/-- C7 witness: on concrete inputs the missing-elements problem precedes the
`sim.x` metadata problems, and within `sim.x` the `phetioTypeName` problem
precedes the `phetioState` problem. -/
theorem compare_problem_order_witness :
    compareAPIs apiOld apiNew = Except.ok
      [ Problem.mk "Second API missing elements:\n\tsim.y"
      , Problem.mk "sim.x.phetioTypeName changed from T1 to T2"
      , Problem.mk "sim.x.phetioState changed from true to false" ] :=
  compare_problem_order apiOld apiNew eltsOld eltsNew rfl rfl

/-- C8: `compareAPIs` returns a Problem sequence exactly when both inputs
possess the `phetioElements` mapping, and fails with an error exactly when
the mapping is absent on at least one side; a missing mapping is never
treated as zero elements. -/
theorem compare_total_iff_elements_present (api1 api2 : API) :
    ((∃ ps, compareAPIs api1 api2 = Except.ok ps)
        ↔ (api1.phetioElements ≠ none ∧ api2.phetioElements ≠ none))
    ∧ ((∃ e, compareAPIs api1 api2 = Except.error e)
        ↔ (api1.phetioElements = none ∨ api2.phetioElements = none)) := by
  rcases api1 with ⟨pe1, r1⟩
  rcases api2 with ⟨pe2, r2⟩
  rcases pe1 with _ | l1 <;> rcases pe2 with _ | l2 <;> simp [compareAPIs]

/-- C9: the deep-equal guard on the two key arrays is a pure optimization:
the comparator that always computes the key-set difference returns the same
result as `compareAPIs` on every input pair. -/
theorem compare_guard_is_pure_optimization (api1 api2 : API) :
    compareAPIsUnguarded api1 api2 = compareAPIs api1 api2 := by
  rcases api1 with ⟨pe1, r1⟩
  rcases api2 with ⟨pe2, r2⟩
  rcases pe1 with _ | l1 <;> rcases pe2 with _ | l2 <;>
    simp [compareAPIs, compareAPIsUnguarded, missingElementsProblems_eq_unguarded]

/-- C10: the result of `compareAPIs` depends only on the `phetioElements`
field of each input; all other top-level content is irrelevant. -/
theorem compare_depends_only_on_phetioElements (a1 a2 b1 b2 : API)
    (h1 : a1.phetioElements = b1.phetioElements)
    (h2 : a2.phetioElements = b2.phetioElements) :
    compareAPIs a1 a2 = compareAPIs b1 b2 := by
  unfold compareAPIs
  rw [h1, h2]

/-- C10 witness: adding unrelated top-level fields to both inputs leaves the
result unchanged. -/
theorem compare_depends_only_on_phetioElements_witness :
    compareAPIs apiOldExtra apiNewExtra = compareAPIs apiOld apiNew :=
  compare_depends_only_on_phetioElements apiOldExtra apiNewExtra apiOld apiNew rfl rfl

/-- C1: when the list of identifiers present in the old mapping but absent
from the new one is non-empty, the result is exactly one Problem listing all
of them after the "Second API missing elements" label, joined by
newline-tab, followed only by metadata problems; every later problem concerns
an identifier present in both mappings, so identifiers added in the new API
never produce a Problem. -/
theorem compare_missing_elements_problem (api1 api2 : API) (elts1 elts2 : Elements)
    (h1 : api1.phetioElements = some elts1) (h2 : api2.phetioElements = some elts2)
    (hmiss : (jsKeys elts1).filter (fun e => !((jsKeys elts2).contains e)) ≠ []) :
    ∃ rest, compareAPIs api1 api2 = Except.ok
        (Problem.mk ("Second API missing elements:\n\t"
          ++ String.intercalate "\n\t"
              ((jsKeys elts1).filter (fun e => !((jsKeys elts2).contains e)))) :: rest)
      ∧ ∀ p ∈ rest, ∃ id, id ∈ jsKeys elts1 ∧ id ∈ jsKeys elts2
          ∧ ∃ k, p.message
              = changedMessage id k (getMetadata elts1 id k) (getMetadata elts2 id k) := by
  have hne : jsKeys elts1 ≠ jsKeys elts2 := by
    intro heq
    apply hmiss
    rw [heq, List.filter_eq_nil_iff]
    intro a ha
    simp [ha]
  have hlen : 0 < ((jsKeys elts1).filter (fun e => !((jsKeys elts2).contains e))).length :=
    List.length_pos.mpr hmiss
  have hm : missingElementsProblems (jsKeys elts1) (jsKeys elts2)
      = [Problem.mk ("Second API missing elements:\n\t"
          ++ String.intercalate "\n\t"
              ((jsKeys elts1).filter (fun e => !((jsKeys elts2).contains e))))] := by
    simp only [missingElementsProblems, if_neg hne, if_pos hlen]
  refine ⟨(jsKeys elts1).flatMap
      (fun id => if (jsKeys elts2).contains id then elementProblems elts1 elts2 id else []),
    ?_, ?_⟩
  · rw [compareAPIs_ok_decomp api1 api2 elts1 elts2 h1 h2, hm]
    rfl
  · intro p hp
    obtain ⟨id, hid1, hpif⟩ := List.mem_flatMap.mp hp
    by_cases hc : (jsKeys elts2).contains id
    · rw [if_pos hc] at hpif
      obtain ⟨k, hk⟩ := mem_elementProblems_shape _ _ _ _ hpif
      exact ⟨id, hid1, by simpa using hc, k, hk⟩
    · rw [if_neg hc] at hpif
      exact absurd hpif (List.not_mem_nil p)

/-- C1 witness: removing `sim.y` yields the single missing-elements problem
first, and every later problem is a metadata problem on a shared
identifier. -/
theorem compare_missing_elements_problem_witness :
    ∃ rest, compareAPIs apiOld apiNew = Except.ok
        (Problem.mk "Second API missing elements:\n\tsim.y" :: rest)
      ∧ ∀ p ∈ rest, ∃ id, id ∈ jsKeys eltsOld ∧ id ∈ jsKeys eltsNew
          ∧ ∃ k, p.message
              = changedMessage id k (getMetadata eltsOld id k) (getMetadata eltsNew id k) :=
  compare_missing_elements_problem apiOld apiNew eltsOld eltsNew rfl rfl (by decide)

/-- C5: when the two element mappings enumerate the same key set, possibly in
different insertion order, no missing-elements Problem is emitted: the result
consists of the per-element metadata problems alone. -/
theorem compare_same_key_set_no_missing_problem (api1 api2 : API) (elts1 elts2 : Elements)
    (h1 : api1.phetioElements = some elts1) (h2 : api2.phetioElements = some elts2)
    (hset : ∀ e, e ∈ jsKeys elts1 ↔ e ∈ jsKeys elts2) :
    compareAPIs api1 api2 = Except.ok
      ((jsKeys elts1).flatMap (fun id =>
        if (jsKeys elts2).contains id then elementProblems elts1 elts2 id else [])) := by
  rw [compareAPIs_ok_decomp api1 api2 elts1 elts2 h1 h2,
    missingElementsProblems_eq_nil _ _ (fun a ha => (hset a).mp ha)]
  rfl

/-- C5 witness: the same keys in opposite insertion order produce no
problems at all, in particular no spurious missing-elements problem. -/
theorem compare_same_key_set_no_missing_problem_witness :
    compareAPIs apiAB apiBA = Except.ok [] :=
  compare_same_key_set_no_missing_problem apiAB apiBA [("a", []), ("b", [])]
    [("b", []), ("a", [])] rfl rfl
    (by
      intro e
      simp [jsKeys]
      tauto)

/-- C6: the comparison reads only the eight checked attributes: whenever the
old and new mappings have the same keys and agree on every checked attribute
of every element — so that they may differ arbitrarily on the excluded
attributes `phetioFeatured`, `phetioStudioControl` and `phetioHighFrequency`
— the result is empty; excluded attributes never contribute a Problem. -/
theorem compare_excluded_attributes_never_report (api1 api2 : API) (elts1 elts2 : Elements)
    (h1 : api1.phetioElements = some elts1) (h2 : api2.phetioElements = some elts2)
    (hkeys : jsKeys elts1 = jsKeys elts2)
    (hagree : ∀ id ∈ jsKeys elts1, ∀ c ∈ metadataChecks,
      getMetadata elts1 id c.1 = getMetadata elts2 id c.1) :
    compareAPIs api1 api2 = Except.ok [] := by
  rw [compareAPIs_ok_decomp api1 api2 elts1 elts2 h1 h2]
  have hm : missingElementsProblems (jsKeys elts1) (jsKeys elts2) = [] := by
    unfold missingElementsProblems
    simp [hkeys]
  have hf : (jsKeys elts1).flatMap (fun id =>
      if (jsKeys elts2).contains id then elementProblems elts1 elts2 id else []) = [] := by
    rw [List.flatMap_eq_nil_iff]
    intro id hid
    by_cases hc : (jsKeys elts2).contains id
    · rw [if_pos hc]
      exact elementProblems_eq_nil _ _ _ (hagree id hid)
    · rw [if_neg hc]
  rw [hm, hf]
  rfl

/-- C6 witness: flipping `phetioFeatured` from true to false on a shared
identifier produces zero problems. -/
theorem compare_excluded_attributes_never_report_witness :
    compareAPIs apiFeaturedTrue apiFeaturedFalse = Except.ok [] :=
  compare_excluded_attributes_never_report apiFeaturedTrue apiFeaturedFalse
    [("sim.x", [("phetioFeatured", JSVal.bool true)])]
    [("sim.x", [("phetioFeatured", JSVal.bool false)])] rfl rfl rfl
    (by
      intro id hid c hc
      simp [jsKeys] at hid
      subst hid
      simp [metadataChecks] at hc
      rcases hc with rfl | rfl | rfl | rfl | rfl | rfl | rfl | rfl <;> rfl)

/-- C2: for an identifier present in both mappings and any of the six
non-directional attributes, the result embeds that check's output verbatim,
and the check pushes the `changed from ... to ...` Problem exactly when the
old and new values differ under strict inequality (including `undefined`
against a concrete value). -/
theorem compare_nondirectional_attribute_check (api1 api2 : API) (elts1 elts2 : Elements)
    (id k : String) (ps : List Problem)
    (h1 : api1.phetioElements = some elts1) (h2 : api2.phetioElements = some elts2)
    (hid1 : id ∈ jsKeys elts1) (hid2 : id ∈ jsKeys elts2)
    (hk : k ∈ nonDirectionalKeys)
    (hok : compareAPIs api1 api2 = Except.ok ps) :
    (∃ pre post, ps = pre ++ reportDifferences elts1 elts2 id k none ++ post)
    ∧ reportDifferences elts1 elts2 id k none
        = (if getMetadata elts1 id k = getMetadata elts2 id k then []
           else [Problem.mk (changedMessage id k (getMetadata elts1 id k)
                  (getMetadata elts2 id k))]) := by
  refine ⟨?_, reportDifferences_none_eq elts1 elts2 id k⟩
  have hps : ps = missingElementsProblems (jsKeys elts1) (jsKeys elts2)
      ++ (jsKeys elts1).flatMap (fun i =>
          if (jsKeys elts2).contains i then elementProblems elts1 elts2 i else []) := by
    have hd := compareAPIs_ok_decomp api1 api2 elts1 elts2 h1 h2
    rw [hok] at hd
    exact Except.ok.inj hd
  obtain ⟨pre1, post1, hfm⟩ := flatMap_mem_decomp (jsKeys elts1)
    (fun i => if (jsKeys elts2).contains i then elementProblems elts1 elts2 i else [])
    id hid1
  have hcontains : (jsKeys elts2).contains id = true := by simp [hid2]
  have hkc : (k, (none : Option JSVal)) ∈ metadataChecks := by
    simp only [nonDirectionalKeys, List.mem_cons, List.not_mem_nil, or_false] at hk
    rcases hk with rfl | rfl | rfl | rfl | rfl | rfl <;> decide
  obtain ⟨pre2, post2, hep⟩ := flatMap_mem_decomp metadataChecks
    (fun c => reportDifferences elts1 elts2 id c.1 c.2) (k, none) hkc
  refine ⟨missingElementsProblems (jsKeys elts1) (jsKeys elts2) ++ pre1 ++ pre2,
    post2 ++ post1, ?_⟩
  rw [hps, hfm, if_pos hcontains, elementProblems_eq_flatMap, hep]
  simp [List.append_assoc]

/-- C2 witness: at the concrete inputs the `phetioTypeName` check's output is
embedded in the result and equals the single changed-type-name Problem. -/
theorem compare_nondirectional_attribute_check_witness :
    (∃ pre post,
        [ Problem.mk "Second API missing elements:\n\tsim.y"
        , Problem.mk "sim.x.phetioTypeName changed from T1 to T2"
        , Problem.mk "sim.x.phetioState changed from true to false" ]
          = pre ++ reportDifferences eltsOld eltsNew "sim.x" "phetioTypeName" none ++ post)
    ∧ reportDifferences eltsOld eltsNew "sim.x" "phetioTypeName" none
        = (if getMetadata eltsOld "sim.x" "phetioTypeName"
              = getMetadata eltsNew "sim.x" "phetioTypeName" then []
           else [Problem.mk (changedMessage "sim.x" "phetioTypeName"
                  (getMetadata eltsOld "sim.x" "phetioTypeName")
                  (getMetadata eltsNew "sim.x" "phetioTypeName"))]) :=
  compare_nondirectional_attribute_check apiOld apiNew eltsOld eltsNew
    "sim.x" "phetioTypeName"
    [ Problem.mk "Second API missing elements:\n\tsim.y"
    , Problem.mk "sim.x.phetioTypeName changed from T1 to T2"
    , Problem.mk "sim.x.phetioState changed from true to false" ]
    rfl rfl (by decide) (by decide) (by decide) rfl

/-- C3: for an identifier present in both mappings and a directional check
(`phetioState` with unsafe value `false`, `phetioReadOnly` with unsafe value
`true`), the result embeds that check's output verbatim, and the check pushes
the Problem exactly when the new value equals the unsafe value and the old
value differs from the new one; any other change is silent. -/
theorem compare_directional_attribute_check (api1 api2 : API) (elts1 elts2 : Elements)
    (id k : String) (b : Bool) (ps : List Problem)
    (h1 : api1.phetioElements = some elts1) (h2 : api2.phetioElements = some elts2)
    (hid1 : id ∈ jsKeys elts1) (hid2 : id ∈ jsKeys elts2)
    (hk : (k, b) ∈ directionalChecks)
    (hok : compareAPIs api1 api2 = Except.ok ps) :
    (∃ pre post,
        ps = pre ++ reportDifferences elts1 elts2 id k (some (JSVal.bool b)) ++ post)
    ∧ reportDifferences elts1 elts2 id k (some (JSVal.bool b))
        = (if getMetadata elts2 id k = some (JSVal.bool b)
              ∧ getMetadata elts1 id k ≠ getMetadata elts2 id k
           then [Problem.mk (changedMessage id k (getMetadata elts1 id k)
                  (getMetadata elts2 id k))]
           else []) := by
  refine ⟨?_, reportDifferences_some_eq elts1 elts2 id k (JSVal.bool b)⟩
  have hps : ps = missingElementsProblems (jsKeys elts1) (jsKeys elts2)
      ++ (jsKeys elts1).flatMap (fun i =>
          if (jsKeys elts2).contains i then elementProblems elts1 elts2 i else []) := by
    have hd := compareAPIs_ok_decomp api1 api2 elts1 elts2 h1 h2
    rw [hok] at hd
    exact Except.ok.inj hd
  obtain ⟨pre1, post1, hfm⟩ := flatMap_mem_decomp (jsKeys elts1)
    (fun i => if (jsKeys elts2).contains i then elementProblems elts1 elts2 i else [])
    id hid1
  have hcontains : (jsKeys elts2).contains id = true := by simp [hid2]
  have hkc : (k, some (JSVal.bool b)) ∈ metadataChecks := by
    simp only [directionalChecks, List.mem_cons, List.not_mem_nil, or_false,
      Prod.mk.injEq] at hk
    rcases hk with ⟨rfl, rfl⟩ | ⟨rfl, rfl⟩ <;> decide
  obtain ⟨pre2, post2, hep⟩ := flatMap_mem_decomp metadataChecks
    (fun c => reportDifferences elts1 elts2 id c.1 c.2) (k, some (JSVal.bool b)) hkc
  refine ⟨missingElementsProblems (jsKeys elts1) (jsKeys elts2) ++ pre1 ++ pre2,
    post2 ++ post1, ?_⟩
  rw [hps, hfm, if_pos hcontains, elementProblems_eq_flatMap, hep]
  simp [List.append_assoc]

/-- C3 witness: at the concrete inputs the `phetioState` check's output is
embedded in the result and equals the single became-non-stateful Problem,
since the value changed and the new value is `false`. -/
theorem compare_directional_attribute_check_witness :
    (∃ pre post,
        [ Problem.mk "Second API missing elements:\n\tsim.y"
        , Problem.mk "sim.x.phetioTypeName changed from T1 to T2"
        , Problem.mk "sim.x.phetioState changed from true to false" ]
          = pre ++ reportDifferences eltsOld eltsNew "sim.x" "phetioState"
                (some (JSVal.bool false)) ++ post)
    ∧ reportDifferences eltsOld eltsNew "sim.x" "phetioState" (some (JSVal.bool false))
        = (if getMetadata eltsNew "sim.x" "phetioState" = some (JSVal.bool false)
              ∧ getMetadata eltsOld "sim.x" "phetioState"
                  ≠ getMetadata eltsNew "sim.x" "phetioState"
           then [Problem.mk (changedMessage "sim.x" "phetioState"
                  (getMetadata eltsOld "sim.x" "phetioState")
                  (getMetadata eltsNew "sim.x" "phetioState"))]
           else []) :=
  compare_directional_attribute_check apiOld apiNew eltsOld eltsNew
    "sim.x" "phetioState" false
    [ Problem.mk "Second API missing elements:\n\tsim.y"
    , Problem.mk "sim.x.phetioTypeName changed from T1 to T2"
    , Problem.mk "sim.x.phetioState changed from true to false" ]
    rfl rfl (by decide) (by decide) (by decide) rfl

end Chipper
